import Mathlib

/-!
Verification of the editing core of a browser video cutter: the crop drag
geometry, the trim timeline, the playback synchronisation, the aspect
presets, the manual dimension edits, the export handler and the audio
tempo decomposition.  All numeric state is modelled over the rationals;
every definition is a direct translation of the corresponding source
function.
-/

namespace VideoEditor

/-- clamp as written throughout the source: `Math.max(lo, Math.min(hi, v))`. -/
def clamp (v lo hi : ℚ) : ℚ := max lo (min hi v)

/-- Crop rectangle in source pixel coordinates. -/
structure Rect where
  x : ℚ
  y : ℚ
  width : ℚ
  height : ℚ
deriving DecidableEq, Repr

/-- Drag handle of the crop box. -/
inductive Handle
  | move | n | s | e | w | ne | nw | se | sw
deriving DecidableEq, Repr

namespace Handle

/-- Translation of `dragHandle.includes("e")` in the source. -/
def hasE : Handle → Bool
  | e | ne | se => true
  | _ => false

/-- Translation of `dragHandle.includes("w")` in the source. -/
def hasW : Handle → Bool
  | w | nw | sw => true
  | _ => false

/-- Translation of `dragHandle.includes("s")` in the source. -/
def hasS : Handle → Bool
  | s | se | sw => true
  | _ => false

/-- Translation of `dragHandle.includes("n")` in the source. -/
def hasN : Handle → Bool
  | n | ne | nw => true
  | _ => false

end Handle

/-- Branch of VideoPreview.handleMouseMove for handles containing e:
resize from the right edge, with the optional aspect lock. -/
def eResize (c init : Rect) (dx : ℚ) (alt : Bool) (ar vw vh : ℚ) : Rect :=
  let c := { c with width := max 50 (min (vw - init.x) (init.width + dx)) }
  if alt then
    let c := { c with height := c.width / ar }
    if vh < init.y + c.height then
      let h := vh - init.y
      { c with height := h, width := h * ar }
    else c
  else c

/-- Branch of VideoPreview.handleMouseMove for handles containing w:
resize from the left edge, keeping the right edge fixed. -/
def wResize (c init : Rect) (dx : ℚ) (alt : Bool) (ar : ℚ) : Rect :=
  let newWidth := max 50 (init.width - dx)
  let newX := init.x + (init.width - newWidth)
  if 0 ≤ newX then
    let c := { c with width := newWidth, x := newX }
    if alt then
      let heightChange := (init.width - newWidth) / ar
      let c := { c with height := init.height - heightChange, y := init.y + heightChange }
      if c.y < 0 then
        let h := init.y + init.height
        let w := h * ar
        { c with y := 0, height := h, width := w, x := init.x + init.width - w }
      else c
    else c
  else c

/-- Branch of VideoPreview.handleMouseMove for handles containing s:
resize from the bottom edge. -/
def sResize (c init : Rect) (dy : ℚ) (alt : Bool) (ar vw vh : ℚ) : Rect :=
  let c := { c with height := max 50 (min (vh - init.y) (init.height + dy)) }
  if alt then
    let c := { c with width := c.height * ar }
    if vw < init.x + c.width then
      let w := vw - init.x
      { c with width := w, height := w / ar }
    else c
  else c

/-- Branch of VideoPreview.handleMouseMove for handles containing n:
resize from the top edge, keeping the bottom edge fixed. -/
def nResize (c init : Rect) (dy : ℚ) (alt : Bool) (ar : ℚ) : Rect :=
  let newHeight := max 50 (init.height - dy)
  let newY := init.y + (init.height - newHeight)
  if 0 ≤ newY then
    let c := { c with height := newHeight, y := newY }
    if alt then
      let widthChange := (init.height - newHeight) * ar
      let c := { c with width := init.width - widthChange, x := init.x + widthChange }
      if c.x < 0 then
        let w := init.x + init.width
        let h := w / ar
        { c with x := 0, width := w, height := h, y := init.y + init.height - h }
      else c
    else c
  else c

/-- Aspect locked corner block of the source for the se handle. -/
def seCorner (c init : Rect) (dx dy ar vw vh : ℚ) : Rect :=
  let c : Rect :=
    if |dy| < |dx| then
      let w := max 50 (init.width + dx)
      { c with width := w, height := w / ar }
    else
      let h := max 50 (init.height + dy)
      { c with height := h, width := h * ar }
  let c : Rect :=
    if vw < init.x + c.width then
      let w := vw - init.x
      { c with width := w, height := w / ar }
    else c
  if vh < init.y + c.height then
    let h := vh - init.y
    { c with height := h, width := h * ar }
  else c

/-- Aspect locked corner block of the source for the nw handle. -/
def nwCorner (c init : Rect) (dx dy ar : ℚ) : Rect :=
  let c : Rect :=
    if |dy| < |dx| then
      let w := max 50 (init.width - dx)
      { c with width := w, height := w / ar }
    else
      let h := max 50 (init.height - dy)
      { c with height := h, width := h * ar }
  let c : Rect := { c with x := init.x + init.width - c.width, y := init.y + init.height - c.height }
  let c : Rect :=
    if c.x < 0 then
      let w := init.x + init.width
      let h := w / ar
      { c with x := 0, width := w, height := h, y := init.y + init.height - h }
    else c
  if c.y < 0 then
    let h := init.y + init.height
    let w := h * ar
    { c with y := 0, height := h, width := w, x := init.x + init.width - w }
  else c

/-- Aspect locked corner block of the source for the ne handle.  Note the
source never rewrites x here. -/
def neCorner (c init : Rect) (dx dy ar vw : ℚ) : Rect :=
  let c : Rect :=
    if |dy| < |dx| then
      let w := max 50 (init.width + dx)
      { c with width := w, height := w / ar }
    else
      let h := max 50 (init.height - dy)
      { c with height := h, width := h * ar }
  let c : Rect := { c with y := init.y + init.height - c.height }
  let c : Rect :=
    if vw < init.x + c.width then
      let w := vw - init.x
      { c with width := w, height := w / ar, y := init.y + init.height - w / ar }
    else c
  if c.y < 0 then
    { c with y := 0, height := init.y + init.height, width := (init.y + init.height) * ar }
  else c

/-- Aspect locked corner block of the source for the sw handle.  Note the
source never rewrites y here. -/
def swCorner (c init : Rect) (dx dy ar vh : ℚ) : Rect :=
  let c : Rect :=
    if |dy| < |dx| then
      let w := max 50 (init.width - dx)
      { c with width := w, height := w / ar }
    else
      let h := max 50 (init.height + dy)
      { c with height := h, width := h * ar }
  let c : Rect := { c with x := init.x + init.width - c.width }
  let c : Rect :=
    if c.x < 0 then
      let w := init.x + init.width
      { c with x := 0, width := w, height := w / ar }
    else c
  if vh < init.y + c.height then
    let h := vh - init.y
    { c with height := h, width := h * ar, x := init.x + init.width - h * ar }
  else c

/-- VideoPreview.handleMouseMove of the source (ScreenRecorder.jsx lines
361 to 540): one pointer move step of a crop drag.  cropArea is the current
rectangle, init the snapshot taken on mousedown, alt the aspect lock key,
vw and vh the source frame dimensions.  For the move handle the source uses
the per event delta (dragStart is reset each event); for resize handles it
uses the total delta from the gesture start; both arrive here as dx, dy. -/
def cropMouseMove (cropArea init : Rect) (handle : Handle) (dx dy : ℚ)
    (alt : Bool) (vw vh : ℚ) : Rect :=
  let ar := init.width / init.height
  match handle with
  | .move =>
      { cropArea with
        x := max 0 (min (vw - cropArea.width) (cropArea.x + dx)),
        y := max 0 (min (vh - cropArea.height) (cropArea.y + dy)) }
  | h =>
      let c := cropArea
      let c := if h.hasE then eResize c init dx alt ar vw vh else c
      let c := if h.hasW then wResize c init dx alt ar else c
      let c := if h.hasS then sResize c init dy alt ar vw vh else c
      let c := if h.hasN then nResize c init dy alt ar else c
      if alt then
        match h with
        | .se => seCorner c init dx dy ar vw vh
        | .nw => nwCorner c init dx dy ar
        | .ne => neCorner c init dx dy ar vw
        | .sw => swCorner c init dx dy ar vh
        | _ => c
      else c

/-- A whole crop drag gesture: the source snapshots the rectangle on
mousedown and then applies handleMouseMove once per pointer event.  The
head of the list is the latest event. -/
def cropGesture (init : Rect) (handle : Handle) (alt : Bool) (vw vh : ℚ) :
    List (ℚ × ℚ) → Rect
  | [] => init
  | d :: ds =>
      cropMouseMove (cropGesture init handle alt vw vh ds) init handle d.1 d.2 alt vw vh

/-- The CropRect invariant of the specification: inside the frame and at
least 50 by 50 source pixels. -/
def inBounds (r : Rect) (vw vh : ℚ) : Prop :=
  0 ≤ r.x ∧ 0 ≤ r.y ∧ r.x + r.width ≤ vw ∧ r.y + r.height ≤ vh ∧
    50 ≤ r.width ∧ 50 ≤ r.height

instance (r : Rect) (vw vh : ℚ) : Decidable (inBounds r vw vh) := by
  unfold inBounds; infer_instance

/-- During a gesture the fields a handle never writes keep the values of
the mousedown snapshot. -/
def anchors (h : Handle) (c init : Rect) : Prop :=
  (h.hasE = true → c.x = init.x) ∧ (h.hasS = true → c.y = init.y)

/-- Drag kind on the timeline track. -/
inductive TrimHandle
  | start | end_ | playhead
deriving DecidableEq, Repr

/-- Timeline.handleMouseMove drag dispatch (Timeline.jsx lines 60 to 71):
returns the new trim pair and, for the playhead, the seek request passed
to onSeek. -/
def timelineDrag (k : TrimHandle) (time trimStart trimEnd duration : ℚ) :
    (ℚ × ℚ) × Option ℚ :=
  match k with
  | .start => ((max 0 (min (trimEnd - 1/2) time), trimEnd), none)
  | .end_ => ((trimStart, max (trimStart + 1/2) (min duration time)), none)
  | .playhead => ((trimStart, trimEnd), some (max 0 (min duration time)))

/-- App.handleSeek (App.jsx lines 261 to 268): the seek target is clamped
to the trim range before being applied. -/
def handleSeek (trimStart trimEnd time : ℚ) : ℚ := max trimStart (min trimEnd time)

/-- Playback cursor plus playing flag. -/
structure PlayerState where
  currentTime : ℚ
  isPlaying : Bool
deriving DecidableEq, Repr

/-- App.handleTimeUpdate (App.jsx lines 237 to 258): reconcile a reported
playback time with the trim interval. -/
def handleTimeUpdate (trimStart trimEnd time : ℚ) (st : PlayerState) : PlayerState :=
  if trimEnd ≤ time then { currentTime := trimEnd, isPlaying := false }
  else if time < trimStart then { st with currentTime := trimStart }
  else { st with currentTime := time }

/-- App.handlePlayPause (App.jsx lines 215 to 227). -/
def handlePlayPause (trimStart trimEnd : ℚ) (st : PlayerState) : PlayerState :=
  if st.isPlaying then { st with isPlaying := false }
  else
    { currentTime := if trimEnd ≤ st.currentTime then trimStart else st.currentTime,
      isPlaying := true }

/-- The selectedRatio state of CropControls: null, a numeric preset, or the
custom button value. -/
inductive RatioSel
  | null
  | num (r : ℚ)
  | custom
deriving DecidableEq, Repr

/-- CropControls.handleRatioClick: value none is the Original preset.
Returns the new selectedRatio and the replacement crop rectangle. -/
def handleRatioClick (value : Option ℚ) (videoWidth videoHeight : ℚ) :
    RatioSel × Rect :=
  match value with
  | none => (RatioSel.null, ⟨0, 0, videoWidth, videoHeight⟩)
  | some tr =>
      let vr := videoWidth / videoHeight
      let wh :=
        if vr < tr then (videoWidth, videoWidth / tr)
        else (videoHeight * tr, videoHeight)
      (RatioSel.num tr,
        ⟨(videoWidth - wh.1) / 2, (videoHeight - wh.2) / 2, wh.1, wh.2⟩)

/-- Which dimension a manual numeric edit targets. -/
inductive Dimension
  | width | height
deriving DecidableEq, Repr

/-- CropControls.handleDimensionChange: value is the parsed integer, none
when parseInt returned NaN.  Returns the new crop rectangle and the new
selectedRatio. -/
def handleDimensionChange (d : Dimension) (value : Option ℤ) (cropArea : Rect)
    (sel : RatioSel) (videoWidth videoHeight : ℚ) : Rect × RatioSel :=
  match value with
  | none => (cropArea, sel)
  | some v =>
      if v < 50 then (cropArea, sel)
      else
        let c :=
          match d with
          | .width => { cropArea with width := min (v : ℚ) (videoWidth - cropArea.x) }
          | .height => { cropArea with height := min (v : ℚ) (videoHeight - cropArea.y) }
        (c, RatioSel.null)

/-- Output format state of ExportButton (the mp4 and gif buttons). -/
inductive ExportFormat
  | mp4 | gif
deriving DecidableEq, Repr

/-- Output quality state of ExportButton (the low, medium and high buttons). -/
inductive ExportQuality
  | low | medium | high
deriving DecidableEq, Repr

/-- Edit parameters read by the export handler: the crop, trim and speed
props plus the format and quality component state. -/
structure EditParams where
  cropArea : Rect
  trimStart : ℚ
  trimEnd : ℚ
  speed : ℚ
  format : ExportFormat
  quality : ExportQuality
deriving DecidableEq, Repr

/-- Outcome of the awaited processVideo call. -/
inductive ExportOutcome
  | success | failure
deriving DecidableEq, Repr

/-- Component state around ExportButton.handleExport. -/
structure ExportState where
  hasVideoFile : Bool
  isExporting : Bool
  edit : EditParams
deriving DecidableEq, Repr

/-- ExportButton.handleExport as a transition: the Bool reports whether an
export actually started, the state is observed after the attempt has
terminated (both the success and the failure continuation reset
isExporting and never write the edit parameters: crop, trim, speed,
format and quality are only read and passed to processVideo). -/
def handleExport (st : ExportState) (outcome : ExportOutcome) : Bool × ExportState :=
  if !st.hasVideoFile || st.isExporting then (false, st)
  else
    match outcome with
    | .success => (true, { st with isExporting := false })
    | .failure => (true, { st with isExporting := false })

/-- Source metadata record of the App component. -/
structure VideoMeta where
  duration : ℚ
  width : ℚ
  height : ℚ
deriving DecidableEq, Repr

/-- The slice of App state touched by the duration repair paths. -/
structure AppState where
  videoMeta : VideoMeta
  trimStart : ℚ
  trimEnd : ℚ
  cropArea : Rect
deriving DecidableEq, Repr

/-- App updateDuration (App.jsx lines 162 to 167); videoDuration none
models a non finite duration reported by the element. -/
def updateDuration (videoDuration : Option ℚ) (st : AppState) : AppState :=
  match videoDuration with
  | some d =>
      if 0 < d ∧ st.videoMeta.duration = 0 then
        { st with videoMeta := { st.videoMeta with duration := d }, trimEnd := d }
      else st
  | none => st

/-- App.handleLoadedMetadata (App.jsx lines 118 to 155); known models the
ambient known duration override, metaDuration none a non finite reported
duration.  Returns the new state and the new override, which the source
always clears. -/
def handleLoadedMetadata (known metaDuration : Option ℚ) (metaWidth metaHeight : ℚ)
    (st : AppState) : AppState × Option ℚ :=
  let metaDur :=
    match metaDuration with
    | some d => if 0 < d then d else 0
    | none => 0
  let fallback := if 0 < st.videoMeta.duration then st.videoMeta.duration else metaDur
  let duration :=
    match known with
    | some k => if 0 < k then k else fallback
    | none => fallback
  ({ videoMeta := ⟨duration, metaWidth, metaHeight⟩,
     trimStart := 0, trimEnd := duration,
     cropArea := ⟨0, 0, metaWidth, metaHeight⟩ }, none)

/-- Least k with q at most 2 ^ k; for q above 1 this is the ceiling of the
base two logarithm, the atempoCount of the source. -/
def ceilLog2 (q : ℚ) : ℕ :=
  Nat.find ((by
    obtain ⟨n, hn⟩ := pow_unbounded_of_one_lt q (by norm_num : (1 : ℚ) < 2)
    exact ⟨n, hn.le⟩) : ∃ k : ℕ, q ≤ 2 ^ k)

/-- The atempo chain loop of processVideo for speed above 2: push
min(2, remaining) and divide it out, count times. -/
def atempoChainUp : ℕ → ℚ → List ℚ
  | 0, _ => []
  | k + 1, remaining =>
      let thisSpeed := min 2 remaining
      thisSpeed :: atempoChainUp k (remaining / thisSpeed)

/-- The atempo chain loop of processVideo for speed below one half: push
max(0.5, remaining) and divide it out, count times. -/
def atempoChainDown : ℕ → ℚ → List ℚ
  | 0, _ => []
  | k + 1, remaining =>
      let thisSpeed := max (1/2) remaining
      thisSpeed :: atempoChainDown k (remaining / thisSpeed)

/-- The audio tempo stages processVideo emits for a non unit speed
(ffmpeg.js lines 80 to 113): a single atempo inside the valid range,
otherwise a chain of atempoCount stages. -/
def audioStages (speed : ℚ) : List ℚ :=
  if 1/2 ≤ speed ∧ speed ≤ 2 then [speed]
  else if 2 < speed then atempoChainUp (ceilLog2 speed) speed
  else atempoChainDown (ceilLog2 (1/speed)) speed

section Theorems

/-- C3: dragging the start handle yields clamp(t, 0, end minus 0.5) and
leaves the end unchanged; dragging the end handle yields
clamp(t, start plus 0.5, duration) and leaves the start unchanged; in
particular dragging start to t = 3.0 past end = 2.8 yields start 2.3 with
end staying 2.8. -/
theorem c3_trim_drag (t s e d : ℚ) :
    (timelineDrag TrimHandle.start t s e d).1 = (clamp t 0 (e - 1/2), e) ∧
    (timelineDrag TrimHandle.end_ t s e d).1 = (s, clamp t (s + 1/2) d) ∧
    (timelineDrag TrimHandle.start 3 s (28/10) d).1 = (23/10, 28/10) := by
  refine ⟨rfl, rfl, ?_⟩
  have h1 : min ((28:ℚ)/10 - 1/2) 3 = 23/10 := by
    rw [min_eq_left (by norm_num)]; norm_num
  simp only [timelineDrag, h1]
  rw [max_eq_right (by norm_num)]

/-- C4: a playhead drag routed through Timeline.handleMouseMove and
App.handleSeek lands exactly on clamp(t, start, end), so the playhead can
not leave the trimmed region while dragging. -/
theorem c4_playhead_drag (t s e d : ℚ) (h0 : 0 ≤ s) (hse : s ≤ e) (hed : e ≤ d) :
    (timelineDrag TrimHandle.playhead t s e d).2 = some (max 0 (min d t)) ∧
    handleSeek s e (max 0 (min d t)) = clamp t s e := by
  refine ⟨rfl, ?_⟩
  unfold handleSeek clamp
  rcases le_total t d with h1 | h1 <;> rcases le_total t 0 with h2 | h2 <;>
    simp only [min_def, max_def] <;> split_ifs <;> linarith

/-- C4 witness at t = -1, trim [1, 2], duration 10. -/
theorem c4_playhead_drag_witness :
    (0:ℚ) ≤ 1 ∧ (1:ℚ) ≤ 2 ∧ (2:ℚ) ≤ 10 ∧
    ((timelineDrag TrimHandle.playhead (-1) 1 2 10).2 = some (max 0 (min 10 (-1))) ∧
      handleSeek 1 2 (max 0 (min 10 (-1))) = clamp (-1) 1 2) :=
  ⟨by norm_num, by norm_num, by norm_num,
    c4_playhead_drag (-1) 1 2 10 (by norm_num) (by norm_num) (by norm_num)⟩

/-- C5: the playback sync step pauses and clamps to end when the reported
time reaches end, clamps to start without pausing when the time is before
start, and otherwise just records the time. -/
theorem c5_time_update (s e t : ℚ) (st : PlayerState) (hse : s ≤ e) :
    (e ≤ t → handleTimeUpdate s e t st = ⟨e, false⟩) ∧
    (t < s → handleTimeUpdate s e t st = ⟨s, st.isPlaying⟩) ∧
    (s ≤ t → t < e → handleTimeUpdate s e t st = ⟨t, st.isPlaying⟩) := by
  unfold handleTimeUpdate
  refine ⟨fun h => ?_, fun h => ?_, fun h1 h2 => ?_⟩
  · rw [if_pos h]
  · rw [if_neg (by intro h2; linarith), if_pos h]
  · rw [if_neg (by intro h3; linarith), if_neg (by intro h3; linarith)]

/-- C5 witness with trim [1, 4] and a playing state. -/
theorem c5_time_update_witness :
    (1:ℚ) ≤ 4 ∧
    (((4:ℚ) ≤ 5 → handleTimeUpdate 1 4 5 ⟨2, true⟩ = ⟨4, false⟩) ∧
      ((5:ℚ) < 1 → handleTimeUpdate 1 4 5 ⟨2, true⟩ = ⟨1, true⟩) ∧
      ((1:ℚ) ≤ 5 → (5:ℚ) < 4 → handleTimeUpdate 1 4 5 ⟨2, true⟩ = ⟨5, true⟩)) :=
  ⟨by norm_num, c5_time_update 1 4 5 ⟨2, true⟩ (by norm_num)⟩

/-- C6: toggling play from a paused state whose cursor is at or past the
trim end repositions the cursor to the trim start and resumes. -/
theorem c6_play_from_end (s e : ℚ) (st : PlayerState) (hp : st.isPlaying = false)
    (he : e ≤ st.currentTime) :
    handlePlayPause s e st = ⟨s, true⟩ := by
  unfold handlePlayPause
  rw [hp, if_neg (by simp), if_pos he]

/-- C6 witness: paused at the trim end 4 with trim start 1. -/
theorem c6_play_from_end_witness :
    (⟨4, false⟩ : PlayerState).isPlaying = false ∧ (4:ℚ) ≤ (⟨4, false⟩ : PlayerState).currentTime ∧
      handlePlayPause 1 4 ⟨4, false⟩ = ⟨1, true⟩ :=
  ⟨rfl, by norm_num, c6_play_from_end 1 4 ⟨4, false⟩ rfl (by norm_num)⟩

/-- C7: a numeric preset replaces the rectangle by the centered fit
rectangle (fit to width when r exceeds the frame aspect, else fit to
height); Original resets to the full frame and clears the lock; preset 1:1
on a 1920 by 1080 source gives the 1080 square at x = 420, y = 0. -/
theorem c7_aspect_preset (r vw vh : ℚ) :
    ((handleRatioClick (some r) vw vh).2.x
        = (vw - (handleRatioClick (some r) vw vh).2.width) / 2 ∧
      (handleRatioClick (some r) vw vh).2.y
        = (vh - (handleRatioClick (some r) vw vh).2.height) / 2) ∧
    (vw / vh < r → (handleRatioClick (some r) vw vh).2.width = vw ∧
      (handleRatioClick (some r) vw vh).2.height = vw / r) ∧
    (r ≤ vw / vh → (handleRatioClick (some r) vw vh).2.height = vh ∧
      (handleRatioClick (some r) vw vh).2.width = vh * r) ∧
    (handleRatioClick (some r) vw vh).1 = RatioSel.num r ∧
    handleRatioClick none vw vh = (RatioSel.null, ⟨0, 0, vw, vh⟩) ∧
    handleRatioClick (some 1) 1920 1080 = (RatioSel.num 1, ⟨420, 0, 1080, 1080⟩) := by
  refine ⟨?_, fun h => ?_, fun h => ?_, rfl, rfl, ?_⟩
  · by_cases h : vw / vh < r <;> simp [handleRatioClick, h]
  · simp [handleRatioClick, if_pos h]
  · simp [handleRatioClick, if_neg (not_lt.mpr h)]
  · have h : ¬ ((1920:ℚ) / 1080 < 1) := by norm_num
    simp only [handleRatioClick, if_neg h]
    norm_num

/-- C7 witness: preset 3:2 on an 800 by 600 frame. -/
theorem c7_aspect_preset_witness :
    ((handleRatioClick (some (3/2)) 800 600).2.x
        = (800 - (handleRatioClick (some (3/2)) 800 600).2.width) / 2 ∧
      (handleRatioClick (some (3/2)) 800 600).2.y
        = (600 - (handleRatioClick (some (3/2)) 800 600).2.height) / 2) ∧
    ((800:ℚ) / 600 < 3/2 → (handleRatioClick (some (3/2)) 800 600).2.width = 800 ∧
      (handleRatioClick (some (3/2)) 800 600).2.height = 800 / (3/2)) ∧
    ((3:ℚ)/2 ≤ 800 / 600 → (handleRatioClick (some (3/2)) 800 600).2.height = 600 ∧
      (handleRatioClick (some (3/2)) 800 600).2.width = 600 * (3/2)) ∧
    (handleRatioClick (some (3/2)) 800 600).1 = RatioSel.num (3/2) ∧
    handleRatioClick none 800 600 = (RatioSel.null, ⟨0, 0, 800, 600⟩) ∧
    handleRatioClick (some 1) 1920 1080 = (RatioSel.num 1, ⟨420, 0, 1080, 1080⟩) :=
  c7_aspect_preset (3/2) 800 600

/-- C8 counterexample: a manual width edit of 30 on a 100 wide crop in a
1000 frame is rejected outright, so the committed width stays 100 instead
of the claimed clamp value 50, and the preset is left in place rather than
cleared; a committed edit of 60 clears the preset to null, not to the
custom value. -/
theorem c8_counterexample :
    handleDimensionChange Dimension.width (some 30) ⟨0, 0, 100, 100⟩ (RatioSel.num 1) 1000 1000
        = (⟨0, 0, 100, 100⟩, RatioSel.num 1) ∧
    (handleDimensionChange Dimension.width (some 30) ⟨0, 0, 100, 100⟩
        (RatioSel.num 1) 1000 1000).1.width ≠ clamp 30 50 (1000 - 0) ∧
    handleDimensionChange Dimension.width (some 60) ⟨0, 0, 100, 100⟩ (RatioSel.num 1) 1000 1000
        = (⟨0, 0, 60, 100⟩, RatioSel.null) ∧
    RatioSel.null ≠ RatioSel.custom := by
  have h30 : handleDimensionChange Dimension.width (some 30) ⟨0, 0, 100, 100⟩
      (RatioSel.num 1) 1000 1000 = (⟨0, 0, 100, 100⟩, RatioSel.num 1) := by
    simp [handleDimensionChange]
  refine ⟨h30, ?_, ?_, by simp⟩
  · rw [h30]
    show (100:ℚ) ≠ clamp 30 50 (1000 - 0)
    rw [clamp, min_eq_right (by norm_num), max_eq_left (by norm_num)]
    norm_num
  · have : ¬ ((60:ℤ) < 50) := by norm_num
    simp only [handleDimensionChange, if_neg this]
    rw [min_eq_left (by norm_num)]
    norm_num

/-- C8 (amended): a manual numeric edit with parsed value at least 50
commits clamp(v, 50, frame dimension minus current origin) to the edited
dimension, leaves the other fields alone, and clears the preset to null;
values below 50 and non numeric entries are rejected outright, leaving
both the rectangle and the preset unchanged. -/
theorem c8_dimension_edit (v : ℤ) (c : Rect) (sel : RatioSel) (vw vh : ℚ)
    (hv : 50 ≤ v) (hxw : c.x + c.width ≤ vw) (hw : 50 ≤ c.width)
    (hyh : c.y + c.height ≤ vh) (hh : 50 ≤ c.height) :
    handleDimensionChange Dimension.width (some v) c sel vw vh
        = ({ c with width := clamp (v : ℚ) 50 (vw - c.x) }, RatioSel.null) ∧
    handleDimensionChange Dimension.height (some v) c sel vw vh
        = ({ c with height := clamp (v : ℚ) 50 (vh - c.y) }, RatioSel.null) ∧
    handleDimensionChange Dimension.width none c sel vw vh = (c, sel) := by
  have hv50 : ¬ (v < 50) := by omega
  have hvq : (50:ℚ) ≤ (v : ℚ) := by exact_mod_cast hv
  have hMw : (50:ℚ) ≤ vw - c.x := by linarith
  have hMh : (50:ℚ) ≤ vh - c.y := by linarith
  refine ⟨?_, ?_, rfl⟩
  · simp only [handleDimensionChange, if_neg hv50]
    rw [clamp, min_comm, max_eq_right (le_min hMw hvq)]
  · simp only [handleDimensionChange, if_neg hv50]
    rw [clamp, min_comm, max_eq_right (le_min hMh hvq)]

/-- C8 witness: a width edit of 60 on a 100 square crop at the origin of a
1000 square frame. -/
theorem c8_dimension_edit_witness :
    (50:ℤ) ≤ 60 ∧
    (handleDimensionChange Dimension.width (some 60) ⟨0, 0, 100, 100⟩ RatioSel.custom 1000 1000
        = ({ Rect.mk 0 0 100 100 with width := clamp ((60:ℤ) : ℚ) 50 (1000 - (Rect.mk 0 0 100 100).x) }, RatioSel.null) ∧
      handleDimensionChange Dimension.height (some 60) ⟨0, 0, 100, 100⟩ RatioSel.custom 1000 1000
        = ({ Rect.mk 0 0 100 100 with height := clamp ((60:ℤ) : ℚ) 50 (1000 - (Rect.mk 0 0 100 100).y) }, RatioSel.null) ∧
      handleDimensionChange Dimension.width none ⟨0, 0, 100, 100⟩ RatioSel.custom 1000 1000
        = (⟨0, 0, 100, 100⟩, RatioSel.custom)) :=
  ⟨by norm_num,
    c8_dimension_edit 60 ⟨0, 0, 100, 100⟩ RatioSel.custom 1000 1000 (by norm_num)
      (by norm_num) (by norm_num) (by norm_num) (by norm_num)⟩

/-- C9: a new export while one is in flight is rejected with no state
change; a started export ends with the in progress flag cleared on both
outcomes; the edit parameters, including the export format and quality,
are never written. -/
theorem c9_export_lifecycle (st : ExportState) (oc : ExportOutcome) :
    (st.isExporting = true → handleExport st oc = (false, st)) ∧
    (handleExport st oc).2.edit = st.edit ∧
    (handleExport st oc).2.edit.format = st.edit.format ∧
    (handleExport st oc).2.edit.quality = st.edit.quality ∧
    (st.hasVideoFile = true → st.isExporting = false →
      handleExport st oc = (true, { st with isExporting := false })) := by
  rcases st with ⟨hv, ie, ed⟩
  cases hv <;> cases ie <;> cases oc <;> simp [handleExport]

/-- C9 witness: an idle session with a file, gif format at high quality,
on the failure outcome. -/
theorem c9_export_lifecycle_witness :
    ((ExportState.mk true false
        ⟨⟨0, 0, 50, 50⟩, 0, 1, 1, ExportFormat.gif, ExportQuality.high⟩).isExporting = true →
      handleExport (ExportState.mk true false
          ⟨⟨0, 0, 50, 50⟩, 0, 1, 1, ExportFormat.gif, ExportQuality.high⟩) ExportOutcome.failure
        = (false, ExportState.mk true false
            ⟨⟨0, 0, 50, 50⟩, 0, 1, 1, ExportFormat.gif, ExportQuality.high⟩)) ∧
    (handleExport (ExportState.mk true false
        ⟨⟨0, 0, 50, 50⟩, 0, 1, 1, ExportFormat.gif, ExportQuality.high⟩)
        ExportOutcome.failure).2.edit
      = (ExportState.mk true false
          ⟨⟨0, 0, 50, 50⟩, 0, 1, 1, ExportFormat.gif, ExportQuality.high⟩).edit ∧
    (handleExport (ExportState.mk true false
        ⟨⟨0, 0, 50, 50⟩, 0, 1, 1, ExportFormat.gif, ExportQuality.high⟩)
        ExportOutcome.failure).2.edit.format
      = (ExportState.mk true false
          ⟨⟨0, 0, 50, 50⟩, 0, 1, 1, ExportFormat.gif, ExportQuality.high⟩).edit.format ∧
    (handleExport (ExportState.mk true false
        ⟨⟨0, 0, 50, 50⟩, 0, 1, 1, ExportFormat.gif, ExportQuality.high⟩)
        ExportOutcome.failure).2.edit.quality
      = (ExportState.mk true false
          ⟨⟨0, 0, 50, 50⟩, 0, 1, 1, ExportFormat.gif, ExportQuality.high⟩).edit.quality ∧
    ((ExportState.mk true false
        ⟨⟨0, 0, 50, 50⟩, 0, 1, 1, ExportFormat.gif, ExportQuality.high⟩).hasVideoFile = true →
      (ExportState.mk true false
          ⟨⟨0, 0, 50, 50⟩, 0, 1, 1, ExportFormat.gif, ExportQuality.high⟩).isExporting = false →
      handleExport (ExportState.mk true false
          ⟨⟨0, 0, 50, 50⟩, 0, 1, 1, ExportFormat.gif, ExportQuality.high⟩) ExportOutcome.failure
        = (true, { ExportState.mk true false
            ⟨⟨0, 0, 50, 50⟩, 0, 1, 1, ExportFormat.gif, ExportQuality.high⟩ with
              isExporting := false })) :=
  c9_export_lifecycle (ExportState.mk true false
    ⟨⟨0, 0, 50, 50⟩, 0, 1, 1, ExportFormat.gif, ExportQuality.high⟩) ExportOutcome.failure

/-- C10: a duration update event leaves a session with positive stored
duration completely unchanged; the metadata handler always clears the
known duration override, and consumes a positive override as the new
duration. -/
theorem c10_duration_repair (vd known metaDuration : Option ℚ) (w h : ℚ)
    (st : AppState) (hpos : 0 < st.videoMeta.duration) :
    updateDuration vd st = st ∧
    (handleLoadedMetadata known metaDuration w h st).2 = none ∧
    (∀ k, known = some k → 0 < k →
      ((handleLoadedMetadata known metaDuration w h st).1).videoMeta.duration = k) := by
  refine ⟨?_, by simp [handleLoadedMetadata], ?_⟩
  · cases vd with
    | none => rfl
    | some d =>
        simp only [updateDuration]
        rw [if_neg]
        rintro ⟨-, h0⟩
        rw [h0] at hpos
        exact lt_irrefl 0 hpos
  · rintro k rfl hk
    simp [handleLoadedMetadata, if_pos hk]

/-- C10 witness: a session with stored duration 5, an override of 7. -/
theorem c10_duration_repair_witness :
    0 < (AppState.mk ⟨5, 640, 480⟩ 0 5 ⟨0, 0, 640, 480⟩).videoMeta.duration ∧
    (updateDuration (some 9) (AppState.mk ⟨5, 640, 480⟩ 0 5 ⟨0, 0, 640, 480⟩)
        = AppState.mk ⟨5, 640, 480⟩ 0 5 ⟨0, 0, 640, 480⟩ ∧
      (handleLoadedMetadata (some 7) (some 9) 640 480
          (AppState.mk ⟨5, 640, 480⟩ 0 5 ⟨0, 0, 640, 480⟩)).2 = none ∧
      (∀ k, (some (7:ℚ)) = some k → 0 < k →
        ((handleLoadedMetadata (some 7) (some 9) 640 480
            (AppState.mk ⟨5, 640, 480⟩ 0 5 ⟨0, 0, 640, 480⟩)).1).videoMeta.duration = k)) :=
  ⟨by norm_num,
    c10_duration_repair (some 9) (some 7) (some 9) 640 480
      (AppState.mk ⟨5, 640, 480⟩ 0 5 ⟨0, 0, 640, 480⟩) (by norm_num)⟩

/-- Helper: the up chain has exactly count stages. -/
theorem atempoChainUp_length (k : ℕ) (r : ℚ) : (atempoChainUp k r).length = k := by
  induction k generalizing r with
  | zero => rfl
  | succ k ih => simp [atempoChainUp, ih]

/-- Helper: the down chain has exactly count stages. -/
theorem atempoChainDown_length (k : ℕ) (r : ℚ) : (atempoChainDown k r).length = k := by
  induction k generalizing r with
  | zero => rfl
  | succ k ih => simp [atempoChainDown, ih]

/-- Helper: starting from a remaining factor between 1 and 2 ^ k, the up
chain multiplies back to it and every stage lies in [1, 2]. -/
theorem atempoChainUp_spec (k : ℕ) (r : ℚ) (h1 : 1 ≤ r) (h2 : r ≤ 2 ^ k) :
    (atempoChainUp k r).prod = r ∧ ∀ x ∈ atempoChainUp k r, 1 ≤ x ∧ x ≤ 2 := by
  induction k generalizing r with
  | zero =>
      have hr : r = 1 := le_antisymm (by simpa using h2) h1
      subst hr
      simp [atempoChainUp]
  | succ k ih =>
      have hstep : atempoChainUp (k + 1) r = min 2 r :: atempoChainUp k (r / min 2 r) := rfl
      rcases le_total 2 r with hr | hr
      · have hm : min 2 r = 2 := min_eq_left hr
        have hr1 : 1 ≤ r / 2 := by
          rw [le_div_iff₀ (by norm_num : (0:ℚ) < 2)]; linarith
        have hr2 : r / 2 ≤ 2 ^ k := by
          rw [div_le_iff₀ (by norm_num : (0:ℚ) < 2)]
          calc r ≤ 2 ^ (k + 1) := h2
            _ = 2 ^ k * 2 := by ring
        obtain ⟨hp, hmem⟩ := ih (r / 2) hr1 hr2
        constructor
        · rw [hstep, hm, List.prod_cons, hp]
          ring
        · intro x hx
          rw [hstep, hm, List.mem_cons] at hx
          rcases hx with rfl | hx
          · exact ⟨one_le_two, le_refl 2⟩
          · exact hmem x hx
      · have hm : min 2 r = r := min_eq_right hr
        have hne : r ≠ 0 := by linarith
        have hdiv : r / r = 1 := div_self hne
        obtain ⟨hp, hmem⟩ := ih (r / r)
          (by rw [hdiv]) (by rw [hdiv]; exact one_le_pow₀ (by norm_num : (1:ℚ) ≤ 2))
        constructor
        · rw [hstep, hm, List.prod_cons, hp, hdiv]
          ring
        · intro x hx
          rw [hstep, hm, List.mem_cons] at hx
          rcases hx with rfl | hx
          · exact ⟨h1, hr⟩
          · exact hmem x hx

/-- Helper: starting from a positive remaining factor at most 1 with
2 ^ k times it at least 1, the down chain multiplies back to it and every
stage lies in [1/2, 1]. -/
theorem atempoChainDown_spec (k : ℕ) (r : ℚ) (h0 : 0 < r) (h1 : r ≤ 1)
    (h2 : 1 ≤ 2 ^ k * r) :
    (atempoChainDown k r).prod = r ∧ ∀ x ∈ atempoChainDown k r, 1/2 ≤ x ∧ x ≤ 1 := by
  induction k generalizing r with
  | zero =>
      have hr : r = 1 := le_antisymm h1 (by simpa using h2)
      subst hr
      simp [atempoChainDown]
  | succ k ih =>
      have hstep : atempoChainDown (k + 1) r
          = max (1/2) r :: atempoChainDown k (r / max (1/2) r) := rfl
      rcases le_total r (1/2) with hr | hr
      · have hm : max (1/2) r = 1/2 := max_eq_left hr
        have hdiv : r / (1/2) = 2 * r := by ring
        have hr0 : 0 < 2 * r := by linarith
        have hr1 : 2 * r ≤ 1 := by linarith
        have hr2 : 1 ≤ 2 ^ k * (2 * r) := by
          calc (1:ℚ) ≤ 2 ^ (k + 1) * r := h2
            _ = 2 ^ k * (2 * r) := by ring
        obtain ⟨hp, hmem⟩ := ih (r / (1/2)) (by rw [hdiv]; exact hr0)
          (by rw [hdiv]; exact hr1) (by rw [hdiv]; exact hr2)
        constructor
        · rw [hstep, hm, List.prod_cons, hp, hdiv]
          ring
        · intro x hx
          rw [hstep, hm, List.mem_cons] at hx
          rcases hx with rfl | hx
          · norm_num
          · exact hmem x hx
      · have hm : max (1/2) r = r := max_eq_right hr
        have hne : r ≠ 0 := by linarith
        have hdiv : r / r = 1 := div_self hne
        obtain ⟨hp, hmem⟩ := ih (r / r) (by rw [hdiv]; norm_num) (by rw [hdiv])
          (by rw [hdiv, mul_one]; exact one_le_pow₀ (by norm_num : (1:ℚ) ≤ 2))
        constructor
        · rw [hstep, hm, List.prod_cons, hp, hdiv]
          ring
        · intro x hx
          rw [hstep, hm, List.mem_cons] at hx
          rcases hx with rfl | hx
          · exact ⟨hr, h1⟩
          · exact hmem x hx

/-- Helper: the found stage count indeed bounds the speed. -/
theorem ceilLog2_spec (q : ℚ) : q ≤ 2 ^ ceilLog2 q := by
  have hex : ∃ k : ℕ, q ≤ 2 ^ k := by
    obtain ⟨n, hn⟩ := pow_unbounded_of_one_lt q (by norm_num : (1 : ℚ) < 2)
    exact ⟨n, hn.le⟩
  show q ≤ 2 ^ Nat.find hex
  exact Nat.find_spec hex

/-- Helper: the found stage count is the least such exponent, which is the
ceiling of the base two logarithm. -/
theorem ceilLog2_min (q : ℚ) (j : ℕ) (h : q ≤ 2 ^ j) : ceilLog2 q ≤ j := by
  have hex : ∃ k : ℕ, q ≤ 2 ^ k := by
    obtain ⟨n, hn⟩ := pow_unbounded_of_one_lt q (by norm_num : (1 : ℚ) < 2)
    exact ⟨n, hn.le⟩
  show Nat.find hex ≤ j
  exact Nat.find_min' hex h

/-- C2: for a positive speed outside [0.5, 2], the audio tempo chain has
exactly ceil(log2 speed) stages (speed above 2) or ceil(log2 (1/speed))
stages (speed below 0.5) — ceilLog2 being exactly that least exponent —
every stage lies in [0.5, 2], and the stage product is exactly the
requested speed. -/
theorem c2_speed_decomposition (speed : ℚ) (hpos : 0 < speed)
    (hout : ¬ (1/2 ≤ speed ∧ speed ≤ 2)) :
    (audioStages speed).length
        = (if 2 < speed then ceilLog2 speed else ceilLog2 (1/speed)) ∧
    (∀ x ∈ audioStages speed, 1/2 ≤ x ∧ x ≤ 2) ∧
    (audioStages speed).prod = speed ∧
    (2 < speed → speed ≤ 2 ^ ceilLog2 speed ∧ ∀ j, speed ≤ 2 ^ j → ceilLog2 speed ≤ j) ∧
    (speed < 1/2 → 1/speed ≤ 2 ^ ceilLog2 (1/speed) ∧
      ∀ j, 1/speed ≤ 2 ^ j → ceilLog2 (1/speed) ≤ j) := by
  by_cases hgt : 2 < speed
  · have h1 : 1 ≤ speed := by linarith
    have h2 : speed ≤ 2 ^ ceilLog2 speed := ceilLog2_spec speed
    obtain ⟨hp, hmem⟩ := atempoChainUp_spec (ceilLog2 speed) speed h1 h2
    have hstages : audioStages speed = atempoChainUp (ceilLog2 speed) speed := by
      unfold audioStages
      rw [if_neg hout, if_pos hgt]
    rw [hstages]
    refine ⟨by rw [atempoChainUp_length, if_pos hgt], ?_, hp,
      fun _ => ⟨h2, fun j hj => ceilLog2_min _ _ hj⟩,
      fun hlt => absurd hlt (by linarith)⟩
    intro x hx
    obtain ⟨ha, hb⟩ := hmem x hx
    exact ⟨by linarith, hb⟩
  · have hlt : speed < 1/2 := by
      rcases lt_or_le speed (1/2) with h | h
      · exact h
      · exact absurd ⟨h, by linarith⟩ hout
    have hfind : 1/speed ≤ 2 ^ ceilLog2 (1/speed) := ceilLog2_spec _
    have hinv : 1 ≤ 2 ^ ceilLog2 (1/speed) * speed := by
      rw [div_le_iff₀ hpos] at hfind
      exact hfind
    obtain ⟨hp, hmem⟩ := atempoChainDown_spec (ceilLog2 (1/speed)) speed hpos
      (by linarith) hinv
    have hstages : audioStages speed = atempoChainDown (ceilLog2 (1/speed)) speed := by
      unfold audioStages
      rw [if_neg hout, if_neg hgt]
    rw [hstages]
    refine ⟨by rw [atempoChainDown_length, if_neg hgt], ?_, hp,
      fun h => absurd h hgt,
      fun _ => ⟨ceilLog2_spec _, fun j hj => ceilLog2_min _ _ hj⟩⟩
    intro x hx
    obtain ⟨ha, hb⟩ := hmem x hx
    exact ⟨ha, by linarith⟩

/-- C2 witness at the spec scenario speed 5. -/
theorem c2_speed_decomposition_witness :
    0 < (5:ℚ) ∧ ¬ ((1:ℚ)/2 ≤ 5 ∧ (5:ℚ) ≤ 2) ∧
    ((audioStages 5).length = (if (2:ℚ) < 5 then ceilLog2 5 else ceilLog2 (1/5)) ∧
      (∀ x ∈ audioStages 5, 1/2 ≤ x ∧ x ≤ 2) ∧
      (audioStages 5).prod = 5 ∧
      ((2:ℚ) < 5 → (5:ℚ) ≤ 2 ^ ceilLog2 5 ∧ ∀ j, (5:ℚ) ≤ 2 ^ j → ceilLog2 5 ≤ j) ∧
      ((5:ℚ) < 1/2 → (1:ℚ)/5 ≤ 2 ^ ceilLog2 ((1:ℚ)/5) ∧
        ∀ j, (1:ℚ)/5 ≤ 2 ^ j → ceilLog2 ((1:ℚ)/5) ≤ j)) :=
  ⟨by norm_num, by norm_num, c2_speed_decomposition 5 (by norm_num) (by norm_num)⟩

/-- Helper: unlocked right edge resize in one step. -/
theorem eResize_nolock (c init : Rect) (dx ar vw vh : ℚ) :
    eResize c init dx false ar vw vh
      = { c with width := max 50 (min (vw - init.x) (init.width + dx)) } := rfl

/-- Helper: unlocked left edge resize in one step. -/
theorem wResize_nolock (c init : Rect) (dx ar : ℚ) :
    wResize c init dx false ar
      = if 0 ≤ init.x + (init.width - max 50 (init.width - dx)) then
          { c with width := max 50 (init.width - dx),
                   x := init.x + (init.width - max 50 (init.width - dx)) }
        else c := by
  unfold wResize
  split_ifs <;> rfl

/-- Helper: unlocked bottom edge resize in one step. -/
theorem sResize_nolock (c init : Rect) (dy ar vw vh : ℚ) :
    sResize c init dy false ar vw vh
      = { c with height := max 50 (min (vh - init.y) (init.height + dy)) } := rfl

/-- Helper: unlocked top edge resize in one step. -/
theorem nResize_nolock (c init : Rect) (dy ar : ℚ) :
    nResize c init dy false ar
      = if 0 ≤ init.y + (init.height - max 50 (init.height - dy)) then
          { c with height := max 50 (init.height - dy),
                   y := init.y + (init.height - max 50 (init.height - dy)) }
        else c := by
  unfold nResize
  split_ifs <;> rfl

/-- Helper: the unlocked right edge branch preserves the invariant and
does not move the origin. -/
theorem e_nolock_preserves (c init : Rect) (dx ar vw vh : ℚ)
    (hi : inBounds init vw vh) (hc : inBounds c vw vh) (hx : c.x = init.x) :
    inBounds (eResize c init dx false ar vw vh) vw vh ∧
    (eResize c init dx false ar vw vh).x = c.x ∧
    (eResize c init dx false ar vw vh).y = c.y := by
  obtain ⟨hix, hiy, hixw, hiyh, hiw, hih⟩ := hi
  obtain ⟨hcx, hcy, hcxw, hcyh, hcw, hch⟩ := hc
  rw [eResize_nolock]
  have hub : max 50 (min (vw - init.x) (init.width + dx)) ≤ vw - init.x :=
    max_le (by linarith) (min_le_left _ _)
  have hlb : (50:ℚ) ≤ max 50 (min (vw - init.x) (init.width + dx)) := le_max_left _ _
  exact ⟨⟨hcx, hcy, by dsimp only; rw [hx]; linarith, hcyh, hlb, hch⟩, rfl, rfl⟩

/-- Helper: the unlocked left edge branch preserves the invariant and does
not move the vertical origin. -/
theorem w_nolock_preserves (c init : Rect) (dx ar vw vh : ℚ)
    (hi : inBounds init vw vh) (hc : inBounds c vw vh) :
    inBounds (wResize c init dx false ar) vw vh ∧
    (wResize c init dx false ar).y = c.y := by
  obtain ⟨hix, hiy, hixw, hiyh, hiw, hih⟩ := hi
  obtain ⟨hcx, hcy, hcxw, hcyh, hcw, hch⟩ := hc
  rw [wResize_nolock]
  split_ifs with h
  · have hlb : (50:ℚ) ≤ max 50 (init.width - dx) := le_max_left _ _
    exact ⟨⟨h, hcy, by dsimp only; linarith, hcyh, hlb, hch⟩, rfl⟩
  · exact ⟨⟨hcx, hcy, hcxw, hcyh, hcw, hch⟩, rfl⟩

/-- Helper: the unlocked bottom edge branch preserves the invariant and
does not move the origin. -/
theorem s_nolock_preserves (c init : Rect) (dy ar vw vh : ℚ)
    (hi : inBounds init vw vh) (hc : inBounds c vw vh) (hy : c.y = init.y) :
    inBounds (sResize c init dy false ar vw vh) vw vh ∧
    (sResize c init dy false ar vw vh).x = c.x ∧
    (sResize c init dy false ar vw vh).y = c.y := by
  obtain ⟨hix, hiy, hixw, hiyh, hiw, hih⟩ := hi
  obtain ⟨hcx, hcy, hcxw, hcyh, hcw, hch⟩ := hc
  rw [sResize_nolock]
  have hub : max 50 (min (vh - init.y) (init.height + dy)) ≤ vh - init.y :=
    max_le (by linarith) (min_le_left _ _)
  have hlb : (50:ℚ) ≤ max 50 (min (vh - init.y) (init.height + dy)) := le_max_left _ _
  exact ⟨⟨hcx, hcy, hcxw, by dsimp only; rw [hy]; linarith, hcw, hlb⟩, rfl, rfl⟩

/-- Helper: the unlocked top edge branch preserves the invariant and does
not move the horizontal origin. -/
theorem n_nolock_preserves (c init : Rect) (dy ar vw vh : ℚ)
    (hi : inBounds init vw vh) (hc : inBounds c vw vh) :
    inBounds (nResize c init dy false ar) vw vh ∧
    (nResize c init dy false ar).x = c.x := by
  obtain ⟨hix, hiy, hixw, hiyh, hiw, hih⟩ := hi
  obtain ⟨hcx, hcy, hcxw, hcyh, hcw, hch⟩ := hc
  rw [nResize_nolock]
  split_ifs with h
  · have hlb : (50:ℚ) ≤ max 50 (init.height - dy) := le_max_left _ _
    exact ⟨⟨hcx, h, hcxw, by dsimp only; linarith, hcw, hlb⟩, rfl⟩
  · exact ⟨⟨hcx, hcy, hcxw, hcyh, hcw, hch⟩, rfl⟩

/-- Helper: step equation for the move handle. -/
theorem cropMouseMove_move_eq (c init : Rect) (dx dy : ℚ) (alt : Bool) (vw vh : ℚ) :
    cropMouseMove c init Handle.move dx dy alt vw vh
      = { c with x := max 0 (min (vw - c.width) (c.x + dx)),
                 y := max 0 (min (vh - c.height) (c.y + dy)) } := rfl

/-- Helper: unlocked step equation for the e handle. -/
theorem cropMouseMove_e_eq (c init : Rect) (dx dy vw vh : ℚ) :
    cropMouseMove c init Handle.e dx dy false vw vh
      = eResize c init dx false (init.width / init.height) vw vh := rfl

/-- Helper: unlocked step equation for the w handle. -/
theorem cropMouseMove_w_eq (c init : Rect) (dx dy vw vh : ℚ) :
    cropMouseMove c init Handle.w dx dy false vw vh
      = wResize c init dx false (init.width / init.height) := rfl

/-- Helper: unlocked step equation for the s handle. -/
theorem cropMouseMove_s_eq (c init : Rect) (dx dy vw vh : ℚ) :
    cropMouseMove c init Handle.s dx dy false vw vh
      = sResize c init dy false (init.width / init.height) vw vh := rfl

/-- Helper: unlocked step equation for the n handle. -/
theorem cropMouseMove_n_eq (c init : Rect) (dx dy vw vh : ℚ) :
    cropMouseMove c init Handle.n dx dy false vw vh
      = nResize c init dy false (init.width / init.height) := rfl

/-- Helper: unlocked step equation for the ne handle. -/
theorem cropMouseMove_ne_eq (c init : Rect) (dx dy vw vh : ℚ) :
    cropMouseMove c init Handle.ne dx dy false vw vh
      = nResize (eResize c init dx false (init.width / init.height) vw vh) init dy false
          (init.width / init.height) := rfl

/-- Helper: unlocked step equation for the se handle. -/
theorem cropMouseMove_se_eq (c init : Rect) (dx dy vw vh : ℚ) :
    cropMouseMove c init Handle.se dx dy false vw vh
      = sResize (eResize c init dx false (init.width / init.height) vw vh) init dy false
          (init.width / init.height) vw vh := rfl

/-- Helper: unlocked step equation for the sw handle. -/
theorem cropMouseMove_sw_eq (c init : Rect) (dx dy vw vh : ℚ) :
    cropMouseMove c init Handle.sw dx dy false vw vh
      = sResize (wResize c init dx false (init.width / init.height)) init dy false
          (init.width / init.height) vw vh := rfl

/-- Helper: unlocked step equation for the nw handle. -/
theorem cropMouseMove_nw_eq (c init : Rect) (dx dy vw vh : ℚ) :
    cropMouseMove c init Handle.nw dx dy false vw vh
      = nResize (wResize c init dx false (init.width / init.height)) init dy false
          (init.width / init.height) := rfl

/-- Helper: one unlocked drag step of any handle preserves the invariant
and the anchored coordinates. -/
theorem cropMouseMove_nolock_step (h : Handle) (c init : Rect) (dx dy vw vh : ℚ)
    (hw : 50 ≤ vw) (hh : 50 ≤ vh) (hi : inBounds init vw vh)
    (hc : inBounds c vw vh) (ha : anchors h c init) :
    inBounds (cropMouseMove c init h dx dy false vw vh) vw vh ∧
    anchors h (cropMouseMove c init h dx dy false vw vh) init := by
  obtain ⟨haE, haS⟩ := ha
  cases h with
  | move =>
      obtain ⟨hix, hiy, hixw, hiyh, hiw, hih⟩ := hi
      obtain ⟨hcx, hcy, hcxw, hcyh, hcw, hch⟩ := hc
      have hx1 : max 0 (min (vw - c.width) (c.x + dx)) ≤ vw - c.width :=
        max_le (by linarith) (min_le_left _ _)
      have hx0 : (0:ℚ) ≤ max 0 (min (vw - c.width) (c.x + dx)) := le_max_left _ _
      have hy1 : max 0 (min (vh - c.height) (c.y + dy)) ≤ vh - c.height :=
        max_le (by linarith) (min_le_left _ _)
      have hy0 : (0:ℚ) ≤ max 0 (min (vh - c.height) (c.y + dy)) := le_max_left _ _
      rw [cropMouseMove_move_eq]
      exact ⟨⟨hx0, hy0, by dsimp only; linarith, by dsimp only; linarith, hcw, hch⟩,
        fun hE => by simp [Handle.hasE] at hE, fun hS => by simp [Handle.hasS] at hS⟩
  | e =>
      have hx : c.x = init.x := haE rfl
      obtain ⟨hb, hxx, hyy⟩ := e_nolock_preserves c init dx (init.width / init.height) vw vh hi hc hx
      rw [cropMouseMove_e_eq]
      exact ⟨hb, fun _ => by rw [hxx, hx], fun hS => by simp [Handle.hasS] at hS⟩
  | w =>
      obtain ⟨hb, hyy⟩ := w_nolock_preserves c init dx (init.width / init.height) vw vh hi hc
      rw [cropMouseMove_w_eq]
      exact ⟨hb, fun hE => by simp [Handle.hasE] at hE, fun hS => by simp [Handle.hasS] at hS⟩
  | s =>
      have hy : c.y = init.y := haS rfl
      obtain ⟨hb, hxx, hyy⟩ := s_nolock_preserves c init dy (init.width / init.height) vw vh hi hc hy
      rw [cropMouseMove_s_eq]
      exact ⟨hb, fun hE => by simp [Handle.hasE] at hE, fun _ => by rw [hyy, hy]⟩
  | n =>
      obtain ⟨hb, hxx⟩ := n_nolock_preserves c init dy (init.width / init.height) vw vh hi hc
      rw [cropMouseMove_n_eq]
      exact ⟨hb, fun hE => by simp [Handle.hasE] at hE, fun hS => by simp [Handle.hasS] at hS⟩
  | ne =>
      have hx : c.x = init.x := haE rfl
      obtain ⟨hb1, hxx1, hyy1⟩ := e_nolock_preserves c init dx (init.width / init.height) vw vh hi hc hx
      obtain ⟨hb2, hxx2⟩ := n_nolock_preserves _ init dy (init.width / init.height) vw vh hi hb1
      rw [cropMouseMove_ne_eq]
      exact ⟨hb2, fun _ => by rw [hxx2, hxx1, hx], fun hS => by simp [Handle.hasS] at hS⟩
  | se =>
      have hx : c.x = init.x := haE rfl
      have hy : c.y = init.y := haS rfl
      obtain ⟨hb1, hxx1, hyy1⟩ := e_nolock_preserves c init dx (init.width / init.height) vw vh hi hc hx
      obtain ⟨hb2, hxx2, hyy2⟩ := s_nolock_preserves _ init dy (init.width / init.height) vw vh hi hb1
        (by rw [hyy1, hy])
      rw [cropMouseMove_se_eq]
      exact ⟨hb2, fun _ => by rw [hxx2, hxx1, hx], fun _ => by rw [hyy2, hyy1, hy]⟩
  | sw =>
      have hy : c.y = init.y := haS rfl
      obtain ⟨hb1, hyy1⟩ := w_nolock_preserves c init dx (init.width / init.height) vw vh hi hc
      obtain ⟨hb2, hxx2, hyy2⟩ := s_nolock_preserves _ init dy (init.width / init.height) vw vh hi hb1
        (by rw [hyy1, hy])
      rw [cropMouseMove_sw_eq]
      exact ⟨hb2, fun hE => by simp [Handle.hasE] at hE, fun _ => by rw [hyy2, hyy1, hy]⟩
  | nw =>
      obtain ⟨hb1, hyy1⟩ := w_nolock_preserves c init dx (init.width / init.height) vw vh hi hc
      obtain ⟨hb2, hxx2⟩ := n_nolock_preserves _ init dy (init.width / init.height) vw vh hi hb1
      rw [cropMouseMove_nw_eq]
      exact ⟨hb2, fun hE => by simp [Handle.hasE] at hE, fun hS => by simp [Handle.hasS] at hS⟩

/-- C1 counterexample: with the aspect lock active, a right edge drag of
dx = -150 on the in bounds rectangle 200 by 100 at the origin of a
1000 by 1000 frame commits the rectangle 50 by 25, whose derived height 25
is below the 50 pixel minimum, so the claimed invariant fails. -/
theorem c1_counterexample :
    ((50:ℚ) ≤ 1000 ∧ inBounds ⟨0, 0, 200, 100⟩ 1000 1000) ∧
    cropMouseMove ⟨0, 0, 200, 100⟩ ⟨0, 0, 200, 100⟩ Handle.e (-150) 0 true 1000 1000
      = ⟨0, 0, 50, 25⟩ ∧
    ¬ inBounds (cropMouseMove ⟨0, 0, 200, 100⟩ ⟨0, 0, 200, 100⟩ Handle.e (-150) 0
        true 1000 1000) 1000 1000 := by
  have hev : cropMouseMove ⟨0, 0, 200, 100⟩ ⟨0, 0, 200, 100⟩ Handle.e (-150) 0 true 1000 1000
      = ⟨0, 0, 50, 25⟩ := by
    norm_num [cropMouseMove, eResize, Handle.hasE, Handle.hasW, Handle.hasS, Handle.hasN,
      min_def, max_def]
  refine ⟨⟨by norm_num, by norm_num [inBounds]⟩, hev, ?_⟩
  rw [hev]
  norm_num [inBounds]

/-- C1 (amended): without the aspect lock, for every handle and every drag
gesture from an in bounds rectangle in a frame of at least 50 by 50, the
rectangle after every single drag step satisfies x at least 0, y at least
0, x plus width at most frameWidth, y plus height at most frameHeight, and
width and height at least 50.  With the lock active the counterexample
shows the derived dimension can fall below the minimum, so the invariant
only holds for unlocked gestures. -/
theorem c1_crop_invariant (h : Handle) (init : Rect) (vw vh : ℚ)
    (ds : List (ℚ × ℚ)) (hw : 50 ≤ vw) (hh : 50 ≤ vh) (hi : inBounds init vw vh) :
    inBounds (cropGesture init h false vw vh ds) vw vh := by
  have key : ∀ l : List (ℚ × ℚ),
      inBounds (cropGesture init h false vw vh l) vw vh ∧
      anchors h (cropGesture init h false vw vh l) init := by
    intro l
    induction l with
    | nil => exact ⟨hi, fun _ => rfl, fun _ => rfl⟩
    | cons d l ih =>
        exact cropMouseMove_nolock_step h _ init d.1 d.2 vw vh hw hh hi ih.1 ih.2
  exact (key ds).1

/-- C1 witness: a two step se drag on a centered square in a 1000 frame. -/
theorem c1_crop_invariant_witness :
    ((50:ℚ) ≤ 1000 ∧ inBounds ⟨200, 200, 100, 100⟩ 1000 1000) ∧
    inBounds (cropGesture ⟨200, 200, 100, 100⟩ Handle.se false 1000 1000
      [(800, 900), (10, 20)]) 1000 1000 :=
  ⟨⟨by norm_num, by norm_num [inBounds]⟩,
    c1_crop_invariant Handle.se ⟨200, 200, 100, 100⟩ 1000 1000 [(800, 900), (10, 20)]
      (by norm_num) (by norm_num) (by norm_num [inBounds])⟩

end Theorems

end VideoEditor
